import Mathlib

/-!
# Verification of the jsonpickle custom-handler core (`jsonpickle/handlers.py`)

A shallow embedding of the handler registry, the abstract handler
capability, the two concrete handlers (`DatetimeHandler` and
`SimpleReduceHandler`) and the default registrations, together with the
pieces of the external Python runtime they touch (the intermediate value
universe, dictionary get/set, base64, `__reduce__`, `__new__` and factory
calls, and the pickler/unpickler context).

Python's mutation of the `data` dictionary is embedded as explicit state
passing: each `flatten` returns both its result and the final state of the
`data` container it was handed.  Fallible Python operations (`KeyError`
on `obj['__reduce__']`, unpack errors, `binascii.Error` on a bad base64
payload, `NotImplementedError` in the abstract base class) are embedded
as `Except PyErr`.
-/

set_option autoImplicit false
set_option linter.unusedVariables false

namespace Jsonpickle

/-- Identifiers of the classes bound by the default registrations at the
bottom of `handlers.py`: `datetime.datetime`, `datetime.date`,
`datetime.time`, `time.struct_time`, `datetime.timedelta` and
`collections.OrderedDict`. -/
inductive ClsId where
  | datetime
  | date
  | time
  | structTime
  | timedelta
  | orderedDict
  deriving DecidableEq, Repr

/-- The JSON-compatible / Python value universe the handlers traffic in:
mappings, sequences, strings, byte strings, numbers, booleans, null,
class objects, and instances of the registered classes.  An instance
`inst c state` carries the ordered argument list it was constructed
from; for the temporal classes this state is the packed binary payload,
for the others the constructor arguments. -/
inductive PyVal where
  | pynone
  | bool (b : Bool)
  | int (n : Int)
  | str (s : String)
  | bytes (bs : List Nat)
  | tuple (xs : List PyVal)
  | list (xs : List PyVal)
  | dict (es : List (String × PyVal))
  | pyclass (c : ClsId)
  | inst (c : ClsId) (state : List PyVal)

/-- A Python dictionary with string keys, as used for the `data`
container handed to `flatten`. -/
abbrev PyDict := List (String × PyVal)

/-- Python exceptions the embedded operations can raise. -/
inductive PyErr where
  | notImplementedError
  | keyError
  | typeError
  | valueError
  | indexError
  | binasciiError
  deriving DecidableEq, Repr

/-- The reserved reconstruction-marker key `'__reduce__'`. -/
def markerKey : String := "__reduce__"

/-- Dictionary read, `d[key]` as a total lookup returning `Option`. -/
def dictGet : PyDict → String → Option PyVal
  | [], _ => none
  | (k, v) :: es, key => if k = key then some v else dictGet es key

/-- Dictionary write, `d[key] = v`: overwrite an existing binding for
`key`, otherwise append a new one (Python dict assignment). -/
def dictSet : PyDict → String → PyVal → PyDict
  | [], key, v => [(key, v)]
  | (k, w) :: es, key, v =>
    if k = key then (k, v) :: es else (k, w) :: dictSet es key v

@[simp] theorem dictGet_dictSet_self (d : PyDict) (key : String) (v : PyVal) :
    dictGet (dictSet d key v) key = some v := by
  induction d with
  | nil => simp [dictGet, dictSet]
  | cons e es ih =>
    obtain ⟨k, w⟩ := e
    by_cases h : k = key <;> simp [dictGet, dictSet, h, ih]

/-! ## base64 (external `base64.b64encode` / `base64.b64decode`)

The standard RFC 4648 base64 alphabet and codec over lists of bytes
(naturals below 256), embedding the Python standard-library calls made
by `DatetimeHandler`. -/

/-- The 64-character base64 alphabet. -/
def b64alphabet : List Char :=
  ['A', 'B', 'C', 'D', 'E', 'F', 'G', 'H', 'I', 'J', 'K', 'L', 'M',
   'N', 'O', 'P', 'Q', 'R', 'S', 'T', 'U', 'V', 'W', 'X', 'Y', 'Z',
   'a', 'b', 'c', 'd', 'e', 'f', 'g', 'h', 'i', 'j', 'k', 'l', 'm',
   'n', 'o', 'p', 'q', 'r', 's', 't', 'u', 'v', 'w', 'x', 'y', 'z',
   '0', '1', '2', '3', '4', '5', '6', '7', '8', '9', '+', '/']

/-- The padding character. -/
def padChar : Char := '='

/-- Character for a six-bit group. -/
def encChar (n : Nat) : Char := b64alphabet.getD n 'A'

/-- Six-bit group for a character, `none` if not in the alphabet. -/
def decChar (c : Char) : Option Nat := b64alphabet.findIdx? (· = c)

/-- base64-encode a byte list, three bytes to four characters, with
`=` padding on a trailing group of one or two bytes. -/
def b64encodeChars : List Nat → List Char
  | [] => []
  | [a] => [encChar (a / 4), encChar (a % 4 * 16), padChar, padChar]
  | [a, b] =>
    [encChar (a / 4), encChar (a % 4 * 16 + b / 16), encChar (b % 16 * 4), padChar]
  | a :: b :: c :: rest =>
    encChar (a / 4) :: encChar (a % 4 * 16 + b / 16) ::
      encChar (b % 16 * 4 + c / 64) :: encChar (c % 64) :: b64encodeChars rest

/-- base64-decode a character list: four characters to three bytes, a
final `=`-padded group to one or two bytes; `none` on any malformed
input (wrong length, bad character, misplaced padding). -/
def b64decodeChars : List Char → Option (List Nat)
  | [] => some []
  | c1 :: c2 :: c3 :: c4 :: rest =>
    match decChar c1, decChar c2 with
    | some s1, some s2 =>
      if c3 = padChar then
        if c4 = padChar then
          if rest = [] then some [s1 * 4 + s2 / 16] else none
        else none
      else
        match decChar c3 with
        | some s3 =>
          if c4 = padChar then
            if rest = [] then
              some [s1 * 4 + s2 / 16, s2 % 16 * 16 + s3 / 4]
            else none
          else
            match decChar c4 with
            | some s4 =>
              (b64decodeChars rest).map fun bs =>
                (s1 * 4 + s2 / 16) :: (s2 % 16 * 16 + s3 / 4) ::
                  (s3 % 4 * 64 + s4) :: bs
            | none => none
        | none => none
    | _, _ => none
  | _ => none

/-- `base64.b64encode` on a byte string, yielding its text form. -/
def b64encode (bs : List Nat) : String := String.mk (b64encodeChars bs)

/-- `base64.b64decode` on a text form, `none` for `binascii.Error`. -/
def b64decode (s : String) : Option (List Nat) := b64decodeChars s.data

theorem decChar_encChar : ∀ n, n < 64 → decChar (encChar n) = some n := by decide

theorem encChar_ne_padChar : ∀ n, n < 64 → encChar n ≠ padChar := by decide

/-- base64 is lossless on arbitrary byte sequences: decoding the encoding
of any byte list gives it back. -/
theorem b64decodeChars_b64encodeChars :
    ∀ bs : List Nat, (∀ x ∈ bs, x < 256) →
      b64decodeChars (b64encodeChars bs) = some bs
  | [], _ => rfl
  | [a], h => by
    have ha : a < 256 := h a (by simp)
    have h1 : a / 4 < 64 := by omega
    have h2 : a % 4 * 16 < 64 := by omega
    simp only [b64encodeChars, b64decodeChars, decChar_encChar _ h1,
      decChar_encChar _ h2, if_pos rfl]
    have e0 : a / 4 * 4 + a % 4 * 16 / 16 = a := by omega
    rw [e0]
    simp
  | [a, b], h => by
    have ha : a < 256 := h a (by simp)
    have hb : b < 256 := h b (by simp)
    have h1 : a / 4 < 64 := by omega
    have h2 : a % 4 * 16 + b / 16 < 64 := by omega
    have h3 : b % 16 * 4 < 64 := by omega
    simp only [b64encodeChars, b64decodeChars, decChar_encChar _ h1,
      decChar_encChar _ h2, decChar_encChar _ h3,
      if_neg (encChar_ne_padChar _ h3), if_pos rfl]
    have e1 : a / 4 * 4 + (a % 4 * 16 + b / 16) / 16 = a := by omega
    have e2 : (a % 4 * 16 + b / 16) % 16 * 16 + b % 16 * 4 / 4 = b := by omega
    rw [e1, e2]
    simp
  | a :: b :: c :: rest, h => by
    have ha : a < 256 := h a (by simp)
    have hb : b < 256 := h b (by simp)
    have hc : c < 256 := h c (by simp)
    have h1 : a / 4 < 64 := by omega
    have h2 : a % 4 * 16 + b / 16 < 64 := by omega
    have h3 : b % 16 * 4 + c / 64 < 64 := by omega
    have h4 : c % 64 < 64 := by omega
    have ih := b64decodeChars_b64encodeChars rest
      (fun x hx => h x (by simp at hx ⊢; tauto))
    simp only [b64encodeChars, b64decodeChars, decChar_encChar _ h1,
      decChar_encChar _ h2, decChar_encChar _ h3, decChar_encChar _ h4,
      if_neg (encChar_ne_padChar _ h3), if_neg (encChar_ne_padChar _ h4), ih,
      Option.map_some]
    have e1 : a / 4 * 4 + (a % 4 * 16 + b / 16) / 16 = a := by omega
    have e2 : (a % 4 * 16 + b / 16) % 16 * 16 + (b % 16 * 4 + c / 64) / 4 = b := by
      omega
    have e3 : (b % 16 * 4 + c / 64) % 4 * 64 + c % 64 = c := by omega
    rw [e1, e2, e3]
    simp

/-! ## The external engine context and the Python runtime operations -/

/-- The pickler/unpickler context (`self.context`): the enclosing engine,
an external collaborator.  It exposes the `unpicklable` flag and the
re-entrant `flatten`/`restore` entry points used for nested values (the
handlers always pass `reset=False`, which only suppresses engine-internal
state resetting, so the model drops that parameter). -/
structure Context where
  unpicklable : Bool
  flatten : PyVal → PyVal
  restore : PyVal → PyVal

/-- The external text conversion `unicode(obj)` (via `jsonpickle.compat`):
the value's default human-readable string form.  The exact rendering of
class instances is the standard library's concern; the claims only use
that the result is a string. -/
def pyUnicode : PyVal → String
  | .pynone => "None"
  | .bool true => "True"
  | .bool false => "False"
  | .int n => toString n
  | .str s => s
  | .bytes bs => toString bs
  | .tuple _ => "<tuple>"
  | .list _ => "<list>"
  | .dict _ => "<dict>"
  | .pyclass _ => "<class>"
  | .inst _ _ => "<instance>"

/-- The external `obj.__reduce__()` capability of the registered standard
library classes: an instance decomposes into its class as the factory and
the ordered argument tuple it was constructed from (for the temporal
classes the packed payload, optionally followed by tzinfo; for the
others the constructor arguments).  Values without the capability raise
`TypeError`. -/
def pyReduce : PyVal → Except PyErr (PyVal × PyVal)
  | .inst c state => .ok (.pyclass c, .tuple state)
  | _ => .error .typeError

/-- Subscripting `v[key]` with a string key: `KeyError` when a mapping
lacks the key, `TypeError` on a non-mapping. -/
def pyGetItem (v : PyVal) (key : String) : Except PyErr PyVal :=
  match v with
  | .dict es =>
    match dictGet es key with
    | some x => .ok x
    | none => .error .keyError
  | _ => .error .typeError

/-- The elements of a Python sequence (iteration, indexing, slicing,
`*`-unpacking); `none` for non-sequences. -/
def seqElems : PyVal → Option (List PyVal)
  | .tuple xs => some xs
  | .list xs => some xs
  | _ => none

/-- Calling `factory(*args)`: the normal construction path.  Invoking a
class object builds an instance from the argument sequence through the
class's ordinary constructor; `*args` requires `args` to be a sequence. -/
def pyCall (factory : PyVal) (args : PyVal) : Except PyErr PyVal :=
  match seqElems args with
  | none => .error .typeError
  | some xs =>
    match factory with
    | .pyclass c => .ok (.inst c xs)
    | _ => .error .typeError

/-- `cls.__new__(cls, *params)`: allocate an instance of the class and
initialize it directly from the raw argument list, bypassing the class's
normal constructor (`__init__` and its argument validation). -/
def pyNew (cls : PyVal) (params : List PyVal) : Except PyErr PyVal :=
  match cls with
  | .pyclass c => .ok (.inst c params)
  | _ => .error .typeError

/-! ## The handler classes (`handlers.py`)

A handler instance is constructed with the context it is bound to
(`BaseHandler.__init__`); each operation below therefore takes that
context as its first argument. -/

/-- `BaseHandler.flatten`: unimplemented in the abstract capability,
`raise NotImplementedError(...)`. -/
def BaseHandler.flatten (ctx : Context) (obj : PyVal) (data : PyDict) :
    Except PyErr (PyVal × PyDict) :=
  .error .notImplementedError

/-- `BaseHandler.restore`: unimplemented in the abstract capability,
`raise NotImplementedError(...)`. -/
def BaseHandler.restore (ctx : Context) (obj : PyVal) : Except PyErr PyVal :=
  .error .notImplementedError

/-- `DatetimeHandler.flatten`: in lossy mode, the string form; otherwise
decompose via `__reduce__`, base64-encode `args[0]`, flatten the
remaining arguments and the class through the context, store the pair
`(flatten(cls), args)` under `'__reduce__'` in `data`, and return
`data`.  The second component is the final state of the `data`
container. -/
def DatetimeHandler.flatten (ctx : Context) (obj : PyVal) (data : PyDict) :
    Except PyErr (PyVal × PyDict) :=
  if !ctx.unpicklable then .ok (.str (pyUnicode obj), data)
  else
    match pyReduce obj with
    | .error e => .error e
    | .ok (cls, argsv) =>
      match seqElems argsv with
      | none => .error .typeError
      | some args =>
        match args with
        | [] => .error .indexError
        | a0 :: rest =>
          match a0 with
          | .bytes payload =>
            let args2 :=
              PyVal.str (b64encode payload) :: rest.map fun i => ctx.flatten i
            let data2 :=
              dictSet data markerKey (.tuple [ctx.flatten cls, .list args2])
            .ok (.dict data2, data2)
          | _ => .error .typeError

/-- `DatetimeHandler.restore`: read `obj['__reduce__']`, unpack it into
`cls, args`, base64-decode `args[0]`, restore `cls` and the remaining
arguments through the context, and construct the result with
`cls.__new__(cls, (value,) + rest)`. -/
def DatetimeHandler.restore (ctx : Context) (obj : PyVal) : Except PyErr PyVal :=
  match pyGetItem obj markerKey with
  | .error e => .error e
  | .ok red =>
    match seqElems red with
    | none => .error .typeError
    | some redElems =>
      match redElems with
      | [clsv, argsv] =>
        match seqElems argsv with
        | none => .error .typeError
        | some args =>
          match args with
          | [] => .error .indexError
          | a0 :: rest =>
            match a0 with
            | .str s =>
              match b64decode s with
              | none => .error .binasciiError
              | some value =>
                let cls := ctx.restore clsv
                let params :=
                  PyVal.bytes value :: rest.map fun i => ctx.restore i
                pyNew cls params
            | _ => .error .typeError
      | _ => .error .valueError

/-- `SimpleReduceHandler.flatten`: in lossy mode, the string form;
otherwise flatten each element of the `(factory, arguments)` pair
returned by `obj.__reduce__()` through the context, store that list
under `'__reduce__'` in `data`, and return `data`.  The second component
is the final state of the `data` container. -/
def SimpleReduceHandler.flatten (ctx : Context) (obj : PyVal) (data : PyDict) :
    Except PyErr (PyVal × PyDict) :=
  if !ctx.unpicklable then .ok (.str (pyUnicode obj), data)
  else
    match pyReduce obj with
    | .error e => .error e
    | .ok (cls, argsv) =>
      let items := [cls, argsv].map fun i => ctx.flatten i
      let data2 := dictSet data markerKey (.list items)
      .ok (.dict data2, data2)

/-- `SimpleReduceHandler.restore`: restore each element of
`obj['__reduce__']` through the context, unpack the result into
`factory, args`, and return `factory(*args)`. -/
def SimpleReduceHandler.restore (ctx : Context) (obj : PyVal) :
    Except PyErr PyVal :=
  match pyGetItem obj markerKey with
  | .error e => .error e
  | .ok red =>
    match seqElems red with
    | none => .error .typeError
    | some xs =>
      match xs.map fun i => ctx.restore i with
      | [factory, args] => pyCall factory args
      | _ => .error .valueError

/-! ## The registry and the default registrations -/

/-- The two concrete handler classes, as registrable values. -/
inductive HandlerId where
  | datetimeHandler
  | simpleReduceHandler
  deriving DecidableEq, Repr

/-- Dispatch a flatten call to the named handler class. -/
def HandlerId.flattenOp : HandlerId → Context → PyVal → PyDict →
    Except PyErr (PyVal × PyDict)
  | .datetimeHandler => DatetimeHandler.flatten
  | .simpleReduceHandler => SimpleReduceHandler.flatten

/-- Dispatch a restore call to the named handler class. -/
def HandlerId.restoreOp : HandlerId → Context → PyVal → Except PyErr PyVal
  | .datetimeHandler => DatetimeHandler.restore
  | .simpleReduceHandler => SimpleReduceHandler.restore

/-- Association-list update keyed by decidable equality (Python dict
assignment, generic in the key type used by `Registry._handlers`). -/
def assocSet {K H : Type} [DecidableEq K] : List (K × H) → K → H → List (K × H)
  | [], key, h => [(key, h)]
  | (k, w) :: es, key, h =>
    if k = key then (k, h) :: es else (k, w) :: assocSet es key h

/-- Association-list lookup keyed by decidable equality (Python
`dict.get`). -/
def assocGet {K H : Type} [DecidableEq K] : List (K × H) → K → Option H
  | [], _ => none
  | (k, w) :: es, key => if k = key then some w else assocGet es key

/-- The handler registry: `self._handlers`, a dictionary from class
objects to handler classes. -/
structure Registry (K H : Type) where
  handlers : List (K × H)

/-- `Registry.__init__`: the empty table. -/
def Registry.empty {K H : Type} : Registry K H := ⟨[]⟩

/-- `Registry.register`: `self._handlers[cls] = handler`. -/
def Registry.register {K H : Type} [DecidableEq K] (r : Registry K H)
    (cls : K) (handler : H) : Registry K H :=
  ⟨assocSet r.handlers cls handler⟩

/-- `Registry.get`: `self._handlers.get(cls)`. -/
def Registry.get {K H : Type} [DecidableEq K] (r : Registry K H) (cls : K) :
    Option H :=
  assocGet r.handlers cls

/-- The module-level default registrations, in source order.  The final
`collections.OrderedDict` binding is guarded by
`sys.version_info >= (2, 7)`, which holds on every supported runtime. -/
def defaultRegistry : Registry ClsId HandlerId :=
  ((((((Registry.empty).register .datetime .datetimeHandler).register
    .date .datetimeHandler).register
    .time .datetimeHandler).register
    .structTime .simpleReduceHandler).register
    .timedelta .simpleReduceHandler).register
    .orderedDict .simpleReduceHandler

/-- `b64decode` is a left inverse of `b64encode` on byte lists. -/
theorem b64decode_b64encode (bs : List Nat) (h : ∀ x ∈ bs, x < 256) :
    b64decode (b64encode bs) = some bs :=
  b64decodeChars_b64encodeChars bs h


/-! ## Supporting definitions and lemmas for the verification -/

/-- A Python class object as a registry key: its identity together with
the identities of its base classes.  `register` and `get` key on the
class object itself; the bases play no role in the lookup. -/
structure PyType where
  tid : Nat
  bases : List Nat
  deriving DecidableEq, Repr

/-- `S` is a proper subtype of `T`: it lists `T` among its bases and is a
distinct class. -/
def PyType.properSubtypeOf (S T : PyType) : Prop :=
  T.tid ∈ S.bases ∧ S.tid ≠ T.tid

theorem assocGet_assocSet_self {K H : Type} [DecidableEq K]
    (es : List (K × H)) (key : K) (h : H) :
    assocGet (assocSet es key h) key = some h := by
  induction es with
  | nil => simp [assocGet, assocSet]
  | cons e es ih =>
    obtain ⟨k, w⟩ := e
    by_cases hk : k = key <;> simp [assocGet, assocSet, hk, ih]

theorem assocGet_assocSet_ne {K H : Type} [DecidableEq K]
    (es : List (K × H)) (k1 k2 : K) (h : H) (hne : k2 ≠ k1) :
    assocGet (assocSet es k1 h) k2 = assocGet es k2 := by
  induction es with
  | nil => simp [assocGet, assocSet, Ne.symm hne]
  | cons e es ih =>
    obtain ⟨k, w⟩ := e
    by_cases hk : k = k1
    · subst hk
      simp [assocGet, assocSet, Ne.symm hne]
    · simp [assocGet, assocSet, hk, ih]

mutual

/-- Whether the reconstruction marker key occurs anywhere in a value. -/
def hasMarker : PyVal → Bool
  | .dict es => (dictGet es markerKey).isSome || hasMarkerEntries es
  | .tuple xs => hasMarkerList xs
  | .list xs => hasMarkerList xs
  | .inst _ st => hasMarkerList st
  | _ => false

/-- `hasMarker` over the elements of a sequence. -/
def hasMarkerList : List PyVal → Bool
  | [] => false
  | x :: xs => hasMarker x || hasMarkerList xs

/-- `hasMarker` over the values of a mapping. -/
def hasMarkerEntries : List (String × PyVal) → Bool
  | [] => false
  | (_, v) :: es => hasMarker v || hasMarkerEntries es

end

/-- Whether a value is a mapping carrying the reconstruction marker key
at its top level (the only place the handlers' `restore` looks). -/
def hasMarkerKeyTop : PyVal → Bool
  | .dict es => (dictGet es markerKey).isSome
  | _ => false

/-- A well-formed decomposition state for the temporal classes: the
first reduce argument is the packed binary payload. -/
def temporalStateOk : List PyVal → Bool
  | .bytes bs :: _ => bs.all (· < 256)
  | _ => false

/-- The well-formedness each handler requires of an instance state:
`DatetimeHandler` needs a leading binary payload, `SimpleReduceHandler`
handles any decomposition. -/
def stateOk : HandlerId → List PyVal → Bool
  | .datetimeHandler, st => temporalStateOk st
  | .simpleReduceHandler, _ => true

/-! ## The claims -/

/-- C5: for every type `T` and handlers `A` and `B`, registering `A` for
`T` and then registering `B` for `T` causes every subsequent `lookup(T)`
to return `B`; registration unconditionally overwrites any prior binding
and never fails (both operations are total). -/
theorem register_last_write_wins (r : Registry PyType HandlerId)
    (T : PyType) (A B : HandlerId) :
    ((r.register T A).register T B).get T = some B :=
  assocGet_assocSet_self _ T B

/-- C6: lookup is exact-type only: for a base type `T` with a registered
handler and a proper subtype `S` of `T` that is not separately
registered, `lookup(S)` returns absent (`none`, not an exception); it
does not fall back to `T`'s handler. -/
theorem lookup_exact_type_only (r : Registry PyType HandlerId)
    (S T : PyType) (A : HandlerId)
    (hsub : S.properSubtypeOf T) (hS : r.get S = none) :
    (r.register T A).get S = none := by
  have hne : S ≠ T := fun he => hsub.2 (congrArg PyType.tid he)
  rw [Registry.register, Registry.get, assocGet_assocSet_ne _ _ _ _ hne]
  exact hS

/-- Witness for C6 at a concrete subtype pair: class `1` lists class `0`
as a base, only class `0` is registered, and lookup of class `1` is
absent. -/
theorem lookup_exact_type_only_witness :
    ((Registry.empty : Registry PyType HandlerId).register ⟨0, []⟩
      .datetimeHandler).get ⟨1, [0]⟩ = none :=
  lookup_exact_type_only Registry.empty ⟨1, [0]⟩ ⟨0, []⟩ .datetimeHandler
    (by constructor <;> simp) rfl

/-- C8: both operations of the abstract base capability fail loudly with
`NotImplementedError` for every context and every value, and neither
ever returns a value. -/
theorem base_handler_unimplemented :
    ∀ (ctx : Context) (obj : PyVal) (data : PyDict),
      BaseHandler.flatten ctx obj data = .error .notImplementedError ∧
      BaseHandler.restore ctx obj = .error .notImplementedError ∧
      (∀ (v : PyVal) (d : PyDict), BaseHandler.flatten ctx obj data ≠ .ok (v, d)) ∧
      (∀ v : PyVal, BaseHandler.restore ctx obj ≠ .ok v) := by
  intro ctx obj data
  refine ⟨rfl, rfl, ?_, ?_⟩ <;> intros <;>
    simp [BaseHandler.flatten, BaseHandler.restore]

/-- C10: when the context's `unpicklable` flag is false, `flatten` on
either concrete handler returns with the `data` container it was given
completely unmodified. -/
theorem lossy_flatten_preserves_data (ctx : Context) (obj : PyVal)
    (data : PyDict) (h : ctx.unpicklable = false) :
    (∃ out1, DatetimeHandler.flatten ctx obj data = .ok (out1, data)) ∧
    (∃ out2, SimpleReduceHandler.flatten ctx obj data = .ok (out2, data)) := by
  refine ⟨⟨.str (pyUnicode obj), ?_⟩, ⟨.str (pyUnicode obj), ?_⟩⟩ <;>
    simp [DatetimeHandler.flatten, SimpleReduceHandler.flatten, h]

/-- Witness for C10 on a concrete lossy-mode context and value. -/
theorem lossy_flatten_preserves_data_witness :
    (∃ out1, DatetimeHandler.flatten ⟨false, id, id⟩ .pynone [] = .ok (out1, [])) ∧
    (∃ out2, SimpleReduceHandler.flatten ⟨false, id, id⟩ .pynone [] = .ok (out2, [])) :=
  lossy_flatten_preserves_data ⟨false, id, id⟩ .pynone [] rfl

/-- C3: when the context's `unpicklable` flag is false, `flatten` on
either registered handler returns the value's default string conversion,
and the returned result contains the reconstruction marker key nowhere. -/
theorem lossy_flatten_string_no_marker (ctx : Context) (obj : PyVal)
    (data : PyDict) (h : ctx.unpicklable = false) :
    (∃ d1, DatetimeHandler.flatten ctx obj data =
      .ok (.str (pyUnicode obj), d1)) ∧
    (∃ d2, SimpleReduceHandler.flatten ctx obj data =
      .ok (.str (pyUnicode obj), d2)) ∧
    hasMarker (.str (pyUnicode obj)) = false := by
  refine ⟨⟨data, ?_⟩, ⟨data, ?_⟩, rfl⟩ <;>
    simp [DatetimeHandler.flatten, SimpleReduceHandler.flatten, h]

/-- Witness for C3 on a concrete lossy-mode context and value. -/
theorem lossy_flatten_string_no_marker_witness :
    (∃ d1, DatetimeHandler.flatten ⟨false, id, id⟩ (.int 5) [] =
      .ok (.str (pyUnicode (.int 5)), d1)) ∧
    (∃ d2, SimpleReduceHandler.flatten ⟨false, id, id⟩ (.int 5) [] =
      .ok (.str (pyUnicode (.int 5)), d2)) ∧
    hasMarker (.str (pyUnicode (.int 5))) = false :=
  lossy_flatten_string_no_marker ⟨false, id, id⟩ (.int 5) [] rfl

/-- C9: for every intermediate value that does not carry the
reconstruction marker key, `restore` on either concrete handler fails
with an error (a `TypeError` on a non-mapping, a `KeyError` on a mapping
without the key); it never returns a value. -/
theorem restore_missing_marker_fatal (ctx : Context) (obj : PyVal)
    (h : hasMarkerKeyTop obj = false) :
    (∃ e1, DatetimeHandler.restore ctx obj = .error e1) ∧
    (∃ e2, SimpleReduceHandler.restore ctx obj = .error e2) := by
  cases obj with
  | dict es =>
    cases hd : dictGet es markerKey with
    | some v => simp [hasMarkerKeyTop, hd] at h
    | none =>
      refine ⟨⟨.keyError, ?_⟩, ⟨.keyError, ?_⟩⟩ <;>
        simp [DatetimeHandler.restore, SimpleReduceHandler.restore, pyGetItem, hd]
  | _ =>
    refine ⟨⟨.typeError, ?_⟩, ⟨.typeError, ?_⟩⟩ <;>
      rfl

/-- Witness for C9 on a mapping without the marker key. -/
theorem restore_missing_marker_fatal_witness :
    (∃ e1, DatetimeHandler.restore ⟨true, id, id⟩
      (.dict [("x", .int 1)]) = .error e1) ∧
    (∃ e2, SimpleReduceHandler.restore ⟨true, id, id⟩
      (.dict [("x", .int 1)]) = .error e2) :=
  restore_missing_marker_fatal ⟨true, id, id⟩ (.dict [("x", .int 1)]) rfl

/-- C7: on a marker whose arguments start with a base64 text payload,
`DatetimeHandler.restore` builds its result with `pyNew` — allocation of
an instance of the restored factory's target type, initialized directly
from the decoded binary payload followed by the recursively restored
remaining arguments, bypassing the class's normal constructor. -/
theorem datetime_restore_allocates_via_new (ctx : Context) (es : PyDict)
    (clsv : PyVal) (s : String) (rest : List PyVal) (bs : List Nat)
    (hget : dictGet es markerKey = some (.tuple [clsv, .list (.str s :: rest)]))
    (hdec : b64decode s = some bs) :
    DatetimeHandler.restore ctx (.dict es) =
      pyNew (ctx.restore clsv) (.bytes bs :: rest.map fun i => ctx.restore i) := by
  simp [DatetimeHandler.restore, pyGetItem, hget, seqElems, hdec]

/-- Witness for C7 on a concrete marker document with a two-byte
payload. -/
theorem datetime_restore_allocates_via_new_witness :
    DatetimeHandler.restore ⟨true, id, id⟩
      (.dict [(markerKey,
        .tuple [.pyclass .datetime, .list [.str (b64encode [7, 231])]])]) =
      pyNew (id (PyVal.pyclass .datetime))
        (.bytes [7, 231] :: List.map (fun i => id i) []) :=
  datetime_restore_allocates_via_new ⟨true, id, id⟩
    [(markerKey, .tuple [.pyclass .datetime, .list [.str (b64encode [7, 231])]])]
    (.pyclass .datetime) (b64encode [7, 231]) [] [7, 231]
    (by simp [dictGet])
    (b64decode_b64encode [7, 231] (by decide))

/-- C2: for a temporal value whose decomposition starts with an
arbitrary byte sequence, `DatetimeHandler.flatten` (unpicklable mode)
stores as the marker's first argument exactly the base64 encoding of
that byte sequence, and `DatetimeHandler.restore` decodes it back, so
flatten-then-restore reproduces the exact byte sequence. -/
theorem datetime_payload_fidelity (ctx : Context) (c : ClsId)
    (payload : List Nat) (rest : List PyVal) (data : PyDict)
    (hup : ctx.unpicklable = true)
    (hbytes : ∀ x ∈ payload, x < 256)
    (hinv : ∀ v, ctx.restore (ctx.flatten v) = v) :
    ∃ data2,
      DatetimeHandler.flatten ctx (.inst c (.bytes payload :: rest)) data =
        .ok (.dict data2, data2) ∧
      dictGet data2 markerKey =
        some (.tuple [ctx.flatten (.pyclass c),
          .list (.str (b64encode payload) :: rest.map fun i => ctx.flatten i)]) ∧
      DatetimeHandler.restore ctx (.dict data2) =
        .ok (.inst c (.bytes payload :: rest)) := by
  refine ⟨dictSet data markerKey (.tuple [ctx.flatten (.pyclass c),
    .list (.str (b64encode payload) :: rest.map fun i => ctx.flatten i)]),
    ?_, dictGet_dictSet_self _ _ _, ?_⟩
  · simp [DatetimeHandler.flatten, hup, pyReduce, seqElems]
  · simp [DatetimeHandler.restore, pyGetItem, dictGet_dictSet_self, seqElems,
      b64decode_b64encode payload hbytes, pyNew, List.map_map,
      Function.comp_def, hinv]

/-- Witness for C2 at the spec's concrete scenario: a datetime instance
whose packed payload is the nine bytes `07 e7 00 01 01 00 00 00 00`. -/
theorem datetime_payload_fidelity_witness :
    ∃ data2,
      DatetimeHandler.flatten ⟨true, id, id⟩
        (.inst .datetime [.bytes [7, 231, 0, 1, 1, 0, 0, 0, 0]]) [] =
        .ok (.dict data2, data2) ∧
      dictGet data2 markerKey =
        some (.tuple [id (PyVal.pyclass .datetime),
          .list (.str (b64encode [7, 231, 0, 1, 1, 0, 0, 0, 0]) ::
            List.map (fun i => id i) [])]) ∧
      DatetimeHandler.restore ⟨true, id, id⟩ (.dict data2) =
        .ok (.inst .datetime [.bytes [7, 231, 0, 1, 1, 0, 0, 0, 0]]) :=
  datetime_payload_fidelity ⟨true, id, id⟩ .datetime
    [7, 231, 0, 1, 1, 0, 0, 0, 0] [] [] rfl (by decide) (fun v => rfl)

/-- C4: whenever either handler's `flatten` stores a value under the
reconstruction marker key (unpicklable mode, successful return), that
value is a two-element ordered sequence whose first element is the
context-encoded factory and whose second element is the encoded argument
list. -/
theorem marker_value_two_element_pair (ctx : Context) (h : HandlerId)
    (obj : PyVal) (data : PyDict) (out : PyVal) (data2 : PyDict)
    (hup : ctx.unpicklable = true)
    (hflat : h.flattenOp ctx obj data = .ok (out, data2)) :
    ∃ m fEnc aEnc cls argsv,
      pyReduce obj = .ok (cls, argsv) ∧
      dictGet data2 markerKey = some m ∧
      seqElems m = some [fEnc, aEnc] ∧
      fEnc = ctx.flatten cls ∧
      (aEnc = ctx.flatten argsv ∨
        ∃ payload restArgs, seqElems argsv = some (.bytes payload :: restArgs) ∧
          aEnc = .list (.str (b64encode payload) ::
            restArgs.map fun i => ctx.flatten i)) := by
  cases h with
  | datetimeHandler =>
    cases obj <;>
      simp only [HandlerId.flattenOp, DatetimeHandler.flatten, hup,
        Bool.not_true, Bool.false_eq_true, if_false, pyReduce,
        seqElems, reduceCtorEq] at hflat
    case inst c state =>
      cases state with
      | nil => simp at hflat
      | cons a0 restArgs =>
        cases a0 <;> simp only [reduceCtorEq] at hflat
        case bytes payload =>
          simp only [Except.ok.injEq, Prod.mk.injEq] at hflat
          obtain ⟨hout, hdata⟩ := hflat
          subst hdata
          exact ⟨_, _, _, _, _, rfl, dictGet_dictSet_self _ _ _, rfl, rfl,
            .inr ⟨payload, restArgs, rfl, rfl⟩⟩
  | simpleReduceHandler =>
    cases obj <;>
      simp only [HandlerId.flattenOp, SimpleReduceHandler.flatten, hup,
        Bool.not_true, Bool.false_eq_true, if_false, pyReduce,
        reduceCtorEq] at hflat
    case inst c state =>
      simp only [List.map, Except.ok.injEq, Prod.mk.injEq] at hflat
      obtain ⟨hout, hdata⟩ := hflat
      subst hdata
      exact ⟨_, _, _, _, _, rfl, dictGet_dictSet_self _ _ _, rfl, rfl,
        .inl rfl⟩

/-- Witness for C4 on a concrete timedelta decomposition handled by
`SimpleReduceHandler`. -/
theorem marker_value_two_element_pair_witness :
    ∃ m fEnc aEnc cls argsv,
      pyReduce (.inst .timedelta [.int 1, .int 2, .int 3]) = .ok (cls, argsv) ∧
      dictGet [(markerKey, PyVal.list [id (PyVal.pyclass .timedelta),
        id (PyVal.tuple [.int 1, .int 2, .int 3])])] markerKey = some m ∧
      seqElems m = some [fEnc, aEnc] ∧
      fEnc = id cls ∧
      (aEnc = id argsv ∨
        ∃ payload restArgs, seqElems argsv = some (.bytes payload :: restArgs) ∧
          aEnc = .list (.str (b64encode payload) ::
            restArgs.map fun i => id i)) :=
  marker_value_two_element_pair ⟨true, id, id⟩ .simpleReduceHandler
    (.inst .timedelta [.int 1, .int 2, .int 3]) []
    (.dict [(markerKey, PyVal.list [id (PyVal.pyclass .timedelta),
      id (PyVal.tuple [.int 1, .int 2, .int 3])])])
    [(markerKey, PyVal.list [id (PyVal.pyclass .timedelta),
      id (PyVal.tuple [.int 1, .int 2, .int 3])])]
    rfl rfl

/-- C1: for every class bound by the default registrations and every
well-formed instance of it, with the context's `unpicklable` flag true
and the context's recursive restore a left inverse of its recursive
flatten, restoring the result of the registered handler's `flatten`
yields a value structurally equal to the original (the model of equality
under the class's own equality). -/
theorem default_registrations_roundtrip (ctx : Context) (c : ClsId)
    (h : HandlerId) (state : List PyVal) (data : PyDict)
    (hreg : defaultRegistry.get c = some h)
    (hup : ctx.unpicklable = true)
    (hinv : ∀ v, ctx.restore (ctx.flatten v) = v)
    (hstate : stateOk h state = true) :
    ∃ out data2,
      h.flattenOp ctx (.inst c state) data = .ok (out, data2) ∧
      h.restoreOp ctx out = .ok (.inst c state) := by
  cases h with
  | datetimeHandler =>
    cases state with
    | nil => simp [stateOk, temporalStateOk] at hstate
    | cons a0 rest =>
      cases a0 <;> simp only [stateOk, temporalStateOk] at hstate
      case bytes payload =>
        have hbytes : ∀ x ∈ payload, x < 256 := by
          intro x hx
          exact of_decide_eq_true (List.all_eq_true.mp hstate x hx)
        refine ⟨.dict (dictSet data markerKey (.tuple [ctx.flatten (.pyclass c),
            .list (.str (b64encode payload) :: rest.map fun i => ctx.flatten i)])),
          dictSet data markerKey (.tuple [ctx.flatten (.pyclass c),
            .list (.str (b64encode payload) :: rest.map fun i => ctx.flatten i)]),
          ?_, ?_⟩
        · simp [HandlerId.flattenOp, DatetimeHandler.flatten, hup, pyReduce,
            seqElems]
        · simp [HandlerId.restoreOp, DatetimeHandler.restore, pyGetItem,
            dictGet_dictSet_self, seqElems,
            b64decode_b64encode payload hbytes, pyNew, List.map_map,
            Function.comp_def, hinv]
      all_goals exact (Bool.false_ne_true hstate).elim
  | simpleReduceHandler =>
    refine ⟨.dict (dictSet data markerKey
        (.list [ctx.flatten (.pyclass c), ctx.flatten (.tuple state)])),
      dictSet data markerKey
        (.list [ctx.flatten (.pyclass c), ctx.flatten (.tuple state)]),
      ?_, ?_⟩
    · simp [HandlerId.flattenOp, SimpleReduceHandler.flatten, hup, pyReduce]
    · simp [HandlerId.restoreOp, SimpleReduceHandler.restore, pyGetItem,
        dictGet_dictSet_self, seqElems, List.map, hinv, pyCall]

/-- Witness for C1: a datetime instance with the spec's nine-byte packed
payload, flattened and restored under the default registration with an
identity engine context. -/
theorem default_registrations_roundtrip_witness :
    ∃ out data2,
      HandlerId.flattenOp .datetimeHandler ⟨true, id, id⟩
        (.inst .datetime [.bytes [7, 231, 0, 1, 1, 0, 0, 0, 0]]) [] =
        .ok (out, data2) ∧
      HandlerId.restoreOp .datetimeHandler ⟨true, id, id⟩ out =
        .ok (.inst .datetime [.bytes [7, 231, 0, 1, 1, 0, 0, 0, 0]]) :=
  default_registrations_roundtrip ⟨true, id, id⟩ .datetime .datetimeHandler
    [.bytes [7, 231, 0, 1, 1, 0, 0, 0, 0]] [] rfl rfl (fun v => rfl)
    (by decide)

end Jsonpickle
